import Mathlib

/-!
Verification of the historical data synchronization engine of `futu_algo`
(`engines/trading_engine.py`), via a shallow embedding of its control flow.

The remote brokerage gateway (`quote_ctx.request_history_kline`,
`quote_ctx.get_stock_filter`, ...) is modelled as an oracle: a list of
responses consumed one per remote call.  The engine's loops are translated to
structurally recursive Lean functions over that oracle, instrumented with an
event trace recording every remote request (with the page cursor it carried)
and every `time.sleep` call (with its duration in milliseconds).
-/

set_option autoImplicit false

namespace FutuAlgo

/-- Futu return codes: `RET_OK` / `RET_ERROR`. -/
inductive RetCode where
  | ok
  | error
deriving DecidableEq, Repr

/-- One response of `quote_ctx.request_history_kline`:
the tuple `(ret, data, page_req_key)`.  `κ` is the type of page cursors
(`page_req_key`), `α` the type of one row of kline data. -/
structure Resp (κ α : Type) where
  ret : RetCode
  data : List α
  next : Option κ
deriving DecidableEq, Repr

/-- Observable events of a run: a remote request carrying the page cursor it
was issued with and the status it got back, or a `time.sleep` (milliseconds). -/
inductive Ev (κ : Type) where
  | req (cursor : Option κ) (ret : RetCode)
  | sleep (ms : Nat)
deriving DecidableEq, Repr

/-- Outcome of the paginated fetch of `update_1M_data`:
`aborted` models the early `return` on a first-page error (lines 254-256),
`done rows` the accumulated `history_df` when pagination is exhausted,
`starved` the artificial case where the response oracle ran out while the
loop was still running (the real loop would keep issuing requests). -/
inductive FetchOutcome (α : Type) where
  | aborted
  | done (rows : List α)
  | starved
deriving DecidableEq, Repr

/-- Result of a fetch loop: outcome, event trace, unconsumed oracle suffix. -/
structure LoopOut (κ α : Type) where
  out : FetchOutcome α
  evs : List (Ev κ)
  rest : List (Resp κ α)
deriving DecidableEq, Repr

/-- The `while page_req_key is not None` loop of `update_1M_data`
(trading_engine.py lines 259-277) together with its inner
`while True` retry loop:

* cursor `none` means pagination is exhausted, the loop stops;
* otherwise one request is issued with the current cursor; on `RET_OK` the
  returned rows are concatenated onto the accumulator and the returned
  `page_req_key` becomes the new cursor (line 271-273); on failure the
  cursor is reverted to `original_page_req_key` (line 276), `time.sleep(1)`
  runs (line 277) and the same page is requested again. -/
def pagesLoop {κ α : Type} : List (Resp κ α) → Option κ → List α → LoopOut κ α
  | oracle, none, acc => ⟨.done acc, [], oracle⟩
  | [], some _, _ => ⟨.starved, [], []⟩
  | r :: rest, some c, acc =>
    if r.ret = RetCode.ok then
      let o := pagesLoop rest r.next (acc ++ r.data)
      ⟨o.out, .req (some c) RetCode.ok :: o.evs, o.rest⟩
    else
      let o := pagesLoop rest (some c) acc
      ⟨o.out, .req (some c) RetCode.error :: .sleep 1000 :: o.evs, o.rest⟩

/-- The accumulation part of `FutuTrade.update_1M_data`
(trading_engine.py lines 244-277): the first page is requested with
`page_req_key=None`; on `RET_ERROR` the function logs and returns at once
(modelled as `aborted`); on `RET_OK` the rows seed `history_df` and the
pagination loop `pagesLoop` runs with the returned cursor. -/
def update_1M_fetch {κ α : Type} : List (Resp κ α) → LoopOut κ α
  | [] => ⟨.starved, [], []⟩
  | r :: rest =>
    if r.ret = RetCode.ok then
      let o := pagesLoop rest r.next r.data
      ⟨o.out, .req none RetCode.ok :: o.evs, o.rest⟩
    else ⟨.aborted, [.req none RetCode.error], rest⟩

/-- Concatenation of the rows of the `RET_OK` responses of a list, in order. -/
def okData {κ α : Type} (l : List (Resp κ α)) : List α :=
  (l.filter (fun r => r.ret == RetCode.ok)).flatMap Resp.data

/-- The request subtrace of an event trace: the cursor and resulting status
of every remote request, in order, sleeps dropped. -/
def reqs {κ : Type} (evs : List (Ev κ)) : List (Option κ × RetCode) :=
  evs.filterMap (fun e =>
    match e with
    | .req c r => some (c, r)
    | .sleep _ => none)

/-- The sequence of `(cursor, status)` pairs the pagination loop issues
against a given oracle, starting from a given cursor. -/
def reqSeq {κ α : Type} : List (Resp κ α) → Option κ → List (Option κ × RetCode)
  | _, none => []
  | [], some _ => []
  | r :: rest, some c =>
    (some c, r.ret) :: reqSeq rest (if r.ret = RetCode.ok then r.next else some c)

/-- A well-formed page stream: every page has status `RET_OK`, every page but
the last carries a further cursor, and the last page's cursor is null. -/
def chainedOk {κ α : Type} : List (Resp κ α) → Bool
  | [] => true
  | [r] => r.ret == RetCode.ok && r.next.isNone
  | r :: r2 :: rest => r.ret == RetCode.ok && r.next.isSome && chainedOk (r2 :: rest)

/-- The requested date window of `FutuTrade.update_1M_data`
(trading_engine.py lines 239-241), dates as day numbers:
`start_date = today - round(365 * years)` when `force_update` else
`today - default_days`; `end_date = today`.  `years` is the integer the
method is called with (its default is 2), so Python's `round(365 * years)`
is the exact product `365 * years`. -/
def update_1M_window (today : Int) (years : Nat) (forceUpdate : Bool)
    (defaultDays : Nat := 30) : Int × Int :=
  (if forceUpdate then today - round ((365 : ℚ) * years) else today - defaultDays, today)

/-! ### Partition writing for minute data

`update_1M_data` lines 279-283: for every `input_date` of the requested date
range, the rows of `history_df` whose `time_key` contains the date string are
written to `{stock_code}_{input_date}_1M.parquet`.  One candle row is
modelled as its `time_key` (a character list such as
`"2024-01-05 10:30:00"`) plus a numeric payload standing for the remaining
columns; the store maps a partition key (the date string) to its rows. -/

/-- One row of `history_df`. -/
structure Candle where
  time_key : List Char
  payload : Nat
deriving DecidableEq, Repr

/-- `needle` occurs as a contiguous substring of `hay`
(pandas `Series.str.contains` with a literal pattern). -/
def strContains : List Char → List Char → Bool
  | hay@(_ :: t), needle => needle.isPrefixOf hay || strContains t needle
  | [], needle => needle.isEmpty

/-- Modelled from the spec: `DataProcessingInterface.save_stock_df_to_file`
is not under `src/` (only its caller `update_1M_data` is).  Spec section 4.3
PartitionWriter: for each partition it "merges the new rows with any existing
persisted rows for that partition key (de-duplicated by the Candle identity
key, new data taking precedence on conflict) and writes the merged set
back".  The candle identity key inside one stock and granularity is the
`time_key`. -/
def save_stock_df_to_file (store : List Char → List Candle) (key : List Char)
    (rows : List Candle) : List Char → List Candle :=
  fun k =>
    if k = key then
      rows ++ (store key).filter (fun old => rows.all (fun r => !(r.time_key == old.time_key)))
    else store k

/-- The per-date partition writing loop of `update_1M_data`
(trading_engine.py lines 279-283). -/
def update_1M_write (dateRange : List (List Char)) (history : List Candle)
    (store : List Char → List Candle) : List Char → List Candle :=
  dateRange.foldl
    (fun st d => save_stock_df_to_file st d (history.filter (fun c => strContains c.time_key d)))
    store

/-! ### Proleptic Gregorian calendar

`update_DW_data` computes `date((datetime.today() - timedelta(days=i*365)).year, 1, 1)`.
Days are numbered with day 0 = 1970-01-01, as in Howard Hinnant's civil
calendar algorithms, which agree with Python's `datetime.date` (proleptic
Gregorian). -/

/-- The day number of the civil date `(y, m, d)`. -/
def daysFromCivil (y : Int) (m d : Nat) : Int :=
  let y2 : Int := y - (if m ≤ 2 then 1 else 0)
  let era : Int := (if 0 ≤ y2 then y2 else y2 - 399) / 400
  let yoe : Nat := (y2 - era * 400).toNat
  let doy : Nat := (153 * (if 2 < m then m - 3 else m + 9) + 2) / 5 + d - 1
  let doe : Nat := yoe * 365 + yoe / 4 - yoe / 100 + doy
  era * 146097 + doe - 719468

/-- The civil year containing a given day number. -/
def yearFromDays (z : Int) : Int :=
  let z2 : Int := z + 719468
  let era : Int := (if 0 ≤ z2 then z2 else z2 - 146096) / 146097
  let doe : Nat := (z2 - era * 146097).toNat
  let yoe : Nat := (doe - doe / 1460 + doe / 36524 - doe / 146096) / 365
  let y : Int := yoe + era * 400
  let doy : Nat := doe - (365 * yoe + yoe / 4 - yoe / 100)
  let mp : Nat := (5 * doy + 2) / 153
  let m : Nat := if mp < 10 then mp + 3 else mp - 9
  if m ≤ 2 then y + 1 else y

/-! ### Daily / weekly update (`update_DW_data`) -/

/-- The `KLType` values `update_DW_data` distinguishes. -/
inductive KLTypeM where
  | K_DAY
  | K_WEEK
  | K_OTHER
deriving DecidableEq, Repr

/-- Result of a run of `update_DW_data`: the partition files written (year
key paired with saved rows, in writing order), the event trace, and whether
the response oracle ran out mid-loop. -/
structure DWOut (α : Type) where
  files : List (Int × List α)
  evs : List (Ev Unit)
  starved : Bool
deriving DecidableEq, Repr

/-- The inner `while True` retry loop of `update_DW_data`
(trading_engine.py lines 309-323): the same request (`page_req_key=None`)
is reissued after `time.sleep(1)` until a `RET_OK` response arrives; the
first `RET_OK` response's rows are what gets saved. -/
def dwRetry {α : Type} : List (Resp Unit α) → List (Ev Unit) × Option (List α × List (Resp Unit α))
  | [] => ([], none)
  | r :: rest =>
    if r.ret = RetCode.ok then ([.req none RetCode.ok], some (r.data, rest))
    else
      let o := dwRetry rest
      (.req none RetCode.error :: .sleep 1000 :: o.1, o.2)

/-- The year of the start date of iteration `i` of `update_DW_data`:
`(datetime.today() - timedelta(days=i*365)).year` (line 295). -/
def dwStartYear (today : Int) (i : Nat) : Int :=
  yearFromDays (today - i * 365)

/-- The start day of iteration `i`: January 1 of `dwStartYear` (line 295). -/
def dwStartDay (today : Int) (i : Nat) : Int :=
  daysFromCivil (dwStartYear today i) 1 1

/-- The `for i in range(...)` loop of `update_DW_data`
(trading_engine.py lines 294-324): iteration `i` computes the start year,
runs the retry loop, saves the received rows to the file keyed by that year,
and ends with `time.sleep(0.6)` (line 324). -/
def dwLoop {α : Type} (today : Int) : Nat → Nat → List (Resp Unit α) → DWOut α
  | _, 0, _ => ⟨[], [], false⟩
  | i, n + 1, oracle =>
    match dwRetry oracle with
    | (evs1, none) => ⟨[], evs1, true⟩
    | (evs1, some (data, rest)) =>
      let o := dwLoop today (i + 1) n rest
      ⟨(dwStartYear today i, data) :: o.files, evs1 ++ .sleep 600 :: o.evs, o.starved⟩

/-- `FutuTrade.update_DW_data` (trading_engine.py lines 286-324):
an unsupported `KLType` is reported and the method returns `False` at once
(modelled as `none`, lines 303-305); otherwise the loop runs
`11 if force_update else (years + 1)` iterations (line 294). -/
def update_DW_data {α : Type} (today : Int) (years : Nat) (forceUpdate : Bool)
    (kt : KLTypeM) (oracle : List (Resp Unit α)) : Option (DWOut α) :=
  if kt = KLTypeM.K_DAY ∨ kt = KLTypeM.K_WEEK then
    some (dwLoop today 0 (if forceUpdate then 11 else years + 1) oracle)
  else none

/-- The first page of daily history for a request `start=startDay, end=None,
max_count=1000` against a source holding the ascending list `source` of
candle days: the first 1000 source rows dated on or after the start day. -/
def dwPage (source : List Int) (startDay : Int) : List Int :=
  (source.filter (fun d => decide (startDay ≤ d))).take 1000

/-- The oracle of an entirely successful `update_DW_data` run against
`source`: response `j` (for iterations `i, i+1, ...`) is `RET_OK` and
carries the first page for that iteration's start day. -/
def mkDWOracle (source : List Int) (today : Int) (i n : Nat) : List (Resp Unit Int) :=
  (List.range' i n).map (fun j => ⟨RetCode.ok, dwPage source (dwStartDay today j), none⟩)

/-! ### Subscription and stock filtering -/

/-- `FutuTrade.kline_subscribe` (trading_engine.py lines 200-207) passes
`stock_list[:min(len(stock_list), 150)]` to `quote_ctx.subscribe`. -/
def kline_subscribe (stockList : List String) : List String :=
  stockList.take (min stockList.length 150)

/-- One response of `quote_ctx.get_stock_filter`: on `RET_OK` the triple
`(last_page, all_count, ret_list)` (stock codes as numbers), else `RET_ERROR`. -/
inductive FilterResp where
  | ok (lastPage : Bool) (allCount : Nat) (codes : List Nat)
  | err
deriving DecidableEq, Repr

/-- The stock codes of one filter response (`[item.stock_code for item in ret_list]`). -/
def codesOf : FilterResp → List Nat
  | .ok _ _ cs => cs
  | .err => []

/-- The `while True` pagination loop of
`FutuTrade.get_filtered_turnover_stocks` (trading_engine.py lines 154-168):
on `RET_OK` the page's codes extend the output and `begin_index += 200`,
stopping once `begin_index >= all_count`; on `RET_ERROR` the method returns
`[]` immediately, dropping everything accumulated.  `none` models the oracle
running out while the loop still needed pages. -/
def get_filtered_turnover_stocks : List FilterResp → Nat → List Nat → Option (List Nat)
  | [], _, _ => none
  | .err :: _, _, _ => some []
  | .ok _ allCount codes :: rest, b, acc =>
    let acc2 := acc ++ codes
    let b2 := b + 200
    if allCount ≤ b2 then some acc2 else get_filtered_turnover_stocks rest b2 acc2

/-- The pages before index `i` are all `RET_OK` and none of them ends the
loop (each response's `all_count` exceeds the advanced `begin_index`). -/
def continuesUpTo : List FilterResp → Nat → Nat → Bool
  | _, _, 0 => true
  | [], _, _ + 1 => false
  | .err :: _, _, _ + 1 => false
  | .ok _ ac _ :: rest, b, i + 1 => decide (b + 200 < ac) && continuesUpTo rest (b + 200) i

/-- A complete, error-free pagination run: every page is `RET_OK`, the last
page's `all_count` stops the loop and every earlier page continues it. -/
def allOkRun : List FilterResp → Nat → Bool
  | [], _ => false
  | [.ok _ ac _], b => decide (ac ≤ b + 200)
  | .ok _ ac _ :: r2 :: rest, b => decide (b + 200 < ac) && allOkRun (r2 :: rest) (b + 200)
  | .err :: _, _ => false

/-! ### Concrete data for the partition-merge scenario (claim C4) -/

/-- Two-digit zero-padded decimal rendering of `n < 100`. -/
def twoDig (n : Nat) : List Char :=
  [Char.ofNat (48 + n / 10), Char.ofNat (48 + n % 10)]

/-- The date string `2024-01-dd`. -/
def jan2024 (d : Nat) : List Char := ("2024-01-").data ++ twoDig d

/-- A `time_key` on day `d` of January 2024. -/
def tkeyJan2024 (d : Nat) : List Char := jan2024 d ++ (" 10:30:00").data

/-- The `date_range` of a fetch window 2024-01-01 .. 2024-01-15. -/
def dateRangeJanA : List (List Char) := (List.range 15).map (fun i => jan2024 (i + 1))

/-- The `date_range` of a fetch window 2024-01-10 .. 2024-01-31. -/
def dateRangeJanB : List (List Char) := (List.range 22).map (fun i => jan2024 (i + 10))

/-- Rows fetched for the first window: one candle on Jan 5 (outside the
second window) and one on Jan 12 (inside both windows). -/
def historyJanA : List Candle := [⟨tkeyJan2024 5, 0⟩, ⟨tkeyJan2024 12, 1⟩]

/-- Rows fetched for the second window: a fresher candle with the same
`time_key` as the Jan 12 row of the first fetch, and one on Jan 20. -/
def historyJanB : List Candle := [⟨tkeyJan2024 12, 2⟩, ⟨tkeyJan2024 20, 3⟩]

/-- The store after writing the first window and then the second. -/
def storeJan : List Char → List Candle :=
  update_1M_write dateRangeJanB historyJanB
    (update_1M_write dateRangeJanA historyJanA (fun _ => []))

/-! ## Lemmas about the pagination loop -/

lemma ret_cases (r : RetCode) : r = RetCode.ok ∨ r = RetCode.error := by
  cases r <;> simp

@[simp] lemma okData_nil {κ α : Type} : okData ([] : List (Resp κ α)) = [] := rfl

lemma okData_cons_ok {κ α : Type} {r : Resp κ α} (l : List (Resp κ α))
    (h : r.ret = RetCode.ok) : okData (r :: l) = r.data ++ okData l := by
  simp [okData, List.filter_cons, h]

lemma okData_cons_error {κ α : Type} {r : Resp κ α} (l : List (Resp κ α))
    (h : r.ret = RetCode.error) : okData (r :: l) = okData l := by
  simp [okData, List.filter_cons, h]

lemma pagesLoop_none {κ α : Type} (oracle : List (Resp κ α)) (acc : List α) :
    pagesLoop oracle none acc = ⟨.done acc, [], oracle⟩ := by
  cases oracle <;> rfl

lemma pagesLoop_nil_some {κ α : Type} (c : κ) (acc : List α) :
    pagesLoop ([] : List (Resp κ α)) (some c) acc = ⟨.starved, [], []⟩ := rfl

lemma pagesLoop_cons_ok {κ α : Type} {r : Resp κ α} (rest : List (Resp κ α))
    (c : κ) (acc : List α) (h : r.ret = RetCode.ok) :
    pagesLoop (r :: rest) (some c) acc =
      ⟨(pagesLoop rest r.next (acc ++ r.data)).out,
       .req (some c) RetCode.ok :: (pagesLoop rest r.next (acc ++ r.data)).evs,
       (pagesLoop rest r.next (acc ++ r.data)).rest⟩ := by
  simp [pagesLoop, h]

lemma pagesLoop_cons_error {κ α : Type} {r : Resp κ α} (rest : List (Resp κ α))
    (c : κ) (acc : List α) (h : r.ret = RetCode.error) :
    pagesLoop (r :: rest) (some c) acc =
      ⟨(pagesLoop rest (some c) acc).out,
       .req (some c) RetCode.error :: .sleep 1000 :: (pagesLoop rest (some c) acc).evs,
       (pagesLoop rest (some c) acc).rest⟩ := by
  simp [pagesLoop, h]

/-- Whenever the pagination loop finishes with `done res`, the result is the
accumulator followed by the rows of exactly the `RET_OK` responses of the
consumed oracle prefix, in order. -/
lemma pagesLoop_done_eq {κ α : Type} (oracle : List (Resp κ α)) :
    ∀ (cur : Option κ) (acc res : List α),
      (pagesLoop oracle cur acc).out = .done res →
      ∃ used, oracle = used ++ (pagesLoop oracle cur acc).rest ∧ res = acc ++ okData used := by
  induction oracle with
  | nil =>
    intro cur acc res h
    cases cur with
    | none =>
      rw [pagesLoop_none] at h ⊢
      cases h
      exact ⟨[], by simp⟩
    | some c => rw [pagesLoop_nil_some] at h; cases h
  | cons r rest ih =>
    intro cur acc res h
    cases cur with
    | none =>
      rw [pagesLoop_none] at h ⊢
      cases h
      exact ⟨[], by simp⟩
    | some c =>
      rcases ret_cases r.ret with hr | hr
      · rw [pagesLoop_cons_ok rest c acc hr] at h ⊢
        obtain ⟨used, h1, h2⟩ := ih r.next (acc ++ r.data) res h
        refine ⟨r :: used, ?_, ?_⟩
        · simpa using h1
        · rw [h2, okData_cons_ok used hr, List.append_assoc]
      · rw [pagesLoop_cons_error rest c acc hr] at h ⊢
        obtain ⟨used, h1, h2⟩ := ih (some c) acc res h
        refine ⟨r :: used, ?_, ?_⟩
        · simpa using h1
        · rw [h2, okData_cons_error used hr]

@[simp] lemma reqs_nil {κ : Type} : reqs ([] : List (Ev κ)) = [] := rfl

@[simp] lemma reqs_cons_req {κ : Type} (c : Option κ) (r : RetCode) (evs : List (Ev κ)) :
    reqs (.req c r :: evs) = (c, r) :: reqs evs := rfl

@[simp] lemma reqs_cons_sleep {κ : Type} (ms : Nat) (evs : List (Ev κ)) :
    reqs (.sleep ms :: evs) = reqs evs := rfl

/-- The request subtrace of the pagination loop is `reqSeq`. -/
lemma reqs_pagesLoop {κ α : Type} (oracle : List (Resp κ α)) :
    ∀ (cur : Option κ) (acc : List α),
      reqs (pagesLoop oracle cur acc).evs = reqSeq oracle cur := by
  induction oracle with
  | nil =>
    intro cur acc
    cases cur with
    | none => rw [pagesLoop_none]; rfl
    | some c => rw [pagesLoop_nil_some]; rfl
  | cons r rest ih =>
    intro cur acc
    cases cur with
    | none => rw [pagesLoop_none]; rfl
    | some c =>
      rcases ret_cases r.ret with hr | hr
      · rw [pagesLoop_cons_ok rest c acc hr]
        simp [reqSeq, hr, ih]
      · rw [pagesLoop_cons_error rest c acc hr]
        simp [reqSeq, hr, ih]

/-- In the request sequence, the request following a failed request carries
the same cursor: the loop reverts to `original_page_req_key` on failure. -/
lemma reqSeq_error_next {κ α : Type} (oracle : List (Resp κ α)) :
    ∀ (cur : Option κ) (i : Nat) (c : Option κ) (p : Option κ × RetCode),
      (reqSeq oracle cur)[i]? = some (c, RetCode.error) →
      (reqSeq oracle cur)[i + 1]? = some p → p.1 = c := by
  induction oracle with
  | nil =>
    intro cur i c p h1 h2
    cases cur <;> simp [reqSeq] at h1
  | cons r rest ih =>
    intro cur i c p h1 h2
    cases cur with
    | none => simp [reqSeq] at h1
    | some c0 =>
      rw [reqSeq] at h1 h2
      cases i with
      | zero =>
        simp only [List.getElem?_cons_zero, Option.some.injEq, Prod.mk.injEq] at h1
        obtain ⟨hc, hr⟩ := h1
        have hcur : (if r.ret = RetCode.ok then r.next else some c0) = some c0 := by
          rw [hr]; simp
        rw [hcur] at h2
        cases rest with
        | nil => simp [reqSeq] at h2
        | cons r2 rest2 =>
          rw [reqSeq] at h2
          simp only [List.getElem?_cons_succ, List.getElem?_cons_zero,
            Option.some.injEq] at h2
          rw [← h2, ← hc]
      | succ i =>
        simp only [List.getElem?_cons_succ] at h1 h2
        exact ih _ i c p h1 h2

/-- The pagination loop (pages after the first) can only end in `done` or,
when the oracle is exhausted, `starved` — never in the `aborted` early return. -/
lemma pagesLoop_out_cases {κ α : Type} (oracle : List (Resp κ α)) :
    ∀ (cur : Option κ) (acc : List α),
      (pagesLoop oracle cur acc).out = .starved ∨
        ∃ res, (pagesLoop oracle cur acc).out = .done res := by
  induction oracle with
  | nil =>
    intro cur acc
    cases cur with
    | none => rw [pagesLoop_none]; exact Or.inr ⟨acc, rfl⟩
    | some c => rw [pagesLoop_nil_some]; exact Or.inl rfl
  | cons r rest ih =>
    intro cur acc
    cases cur with
    | none => rw [pagesLoop_none]; exact Or.inr ⟨acc, rfl⟩
    | some c =>
      rcases ret_cases r.ret with hr | hr
      · rw [pagesLoop_cons_ok rest c acc hr]; exact ih r.next (acc ++ r.data)
      · rw [pagesLoop_cons_error rest c acc hr]; exact ih (some c) acc

/-- An error-free, well-chained page stream is consumed entirely and yields
the concatenation of all its pages' rows onto the accumulator. -/
lemma pagesLoop_chained {κ α : Type} :
    ∀ (oracle : List (Resp κ α)) (c : κ) (acc : List α), oracle ≠ [] →
      chainedOk oracle = true →
      pagesLoop oracle (some c) acc =
        ⟨.done (acc ++ oracle.flatMap Resp.data),
         (pagesLoop oracle (some c) acc).evs, []⟩ := by
  intro oracle
  induction oracle with
  | nil => intro c acc h; exact absurd rfl h
  | cons r rest ih =>
    intro c acc _ hch
    cases rest with
    | nil =>
      simp only [chainedOk, Bool.and_eq_true, beq_iff_eq, Option.isNone_iff_eq_none] at hch
      obtain ⟨hr, hn⟩ := hch
      rw [pagesLoop_cons_ok [] c acc hr, hn, pagesLoop_none]
      simp
    | cons r2 rest2 =>
      simp only [chainedOk, Bool.and_eq_true, beq_iff_eq, Option.isSome_iff_exists] at hch
      obtain ⟨⟨hr, c', hn⟩, hch2⟩ := hch
      rw [pagesLoop_cons_ok (r2 :: rest2) c acc hr, hn]
      have := ih c' (acc ++ r.data) (by simp) hch2
      rw [this]
      simp

/-! ## Claim theorems for the 1-minute fetch loop -/

/-- Claim C1: in `update_1M_data`'s paginated fetch, whenever the loop
completes, the accumulated result is exactly the concatenation of the rows
of the `RET_OK` responses of the consumed oracle prefix, in order — a page
that failed and was retried contributes its rows exactly once and failed
attempts contribute nothing — and in the request trace, any request issued
after a failed request carries the identical page cursor as the failed
attempt (the cursor returned by the failed call is discarded in favor of the
one that preceded it). -/
theorem claim_C1 (κ α : Type) (oracle : List (Resp κ α)) :
    (∀ res, (update_1M_fetch oracle).out = .done res →
      ∃ used, oracle = used ++ (update_1M_fetch oracle).rest ∧ res = okData used) ∧
    (∀ (i : Nat) (c : Option κ) (p : Option κ × RetCode),
      (reqs (update_1M_fetch oracle).evs)[i]? = some (c, RetCode.error) →
      (reqs (update_1M_fetch oracle).evs)[i + 1]? = some p → p.1 = c) := by
  constructor
  · intro res h
    cases oracle with
    | nil => cases h
    | cons r rest =>
      rcases ret_cases r.ret with hr | hr
      · simp only [update_1M_fetch, hr, if_pos] at h ⊢
        obtain ⟨used, h1, h2⟩ := pagesLoop_done_eq rest r.next r.data res h
        refine ⟨r :: used, by simpa using h1, ?_⟩
        rw [h2, okData_cons_ok used hr]
      · simp only [update_1M_fetch, hr] at h
        cases h
  · intro i c p h1 h2
    cases oracle with
    | nil => simp [update_1M_fetch] at h1
    | cons r rest =>
      rcases ret_cases r.ret with hr | hr
      · simp only [update_1M_fetch, hr, if_pos, reqs_cons_req] at h1 h2
        rw [reqs_pagesLoop rest r.next r.data] at h1 h2
        cases i with
        | zero =>
          simp only [List.getElem?_cons_zero, Option.some.injEq, Prod.mk.injEq] at h1
          exact absurd h1.2 (by simp)
        | succ i =>
          simp only [List.getElem?_cons_succ] at h1 h2
          exact reqSeq_error_next rest r.next i c p h1 h2
      · simp only [update_1M_fetch, hr] at h1 h2
        cases i with
        | zero => simp at h2
        | succ i => simp at h1

/-- Witness for C1 on the trace: page 1 succeeds with cursor 7, the request
for page 2 fails once and succeeds on retry with the same cursor 7; the
result holds the rows of every page exactly once. -/
theorem claim_C1_witness :
    (∃ used, ([⟨RetCode.ok, [1, 2], some 7⟩, ⟨RetCode.error, [], some 99⟩,
        ⟨RetCode.ok, [3], none⟩] : List (Resp Nat Nat)) =
          used ++ (update_1M_fetch [⟨RetCode.ok, [1, 2], some 7⟩,
            ⟨RetCode.error, [], some 99⟩, ⟨RetCode.ok, [3], none⟩]).rest ∧
        [1, 2, 3] = okData used) ∧
      ((some 7, RetCode.ok) : Option Nat × RetCode).1 = some 7 :=
  ⟨(claim_C1 Nat Nat [⟨RetCode.ok, [1, 2], some 7⟩, ⟨RetCode.error, [], some 99⟩,
      ⟨RetCode.ok, [3], none⟩]).1 [1, 2, 3] (by decide),
   (claim_C1 Nat Nat [⟨RetCode.ok, [1, 2], some 7⟩, ⟨RetCode.error, [], some 99⟩,
      ⟨RetCode.ok, [3], none⟩]).2 1 (some 7) (some 7, RetCode.ok) (by decide) (by decide)⟩

/-- Claim C2: against a remote source answering with pages `P1..PN`, every
one `RET_OK`, all but the last carrying a further cursor and the last a null
cursor, `update_1M_data`'s accumulation loop consumes every page and
produces exactly the concatenation of all pages' rows, in page order. -/
theorem claim_C2 (κ α : Type) (oracle : List (Resp κ α)) (h1 : oracle ≠ [])
    (h2 : chainedOk oracle = true) :
    (update_1M_fetch oracle).out = .done (oracle.flatMap Resp.data) ∧
      (update_1M_fetch oracle).rest = [] := by
  cases oracle with
  | nil => exact absurd rfl h1
  | cons r rest =>
    cases rest with
    | nil =>
      simp only [chainedOk, Bool.and_eq_true, beq_iff_eq, Option.isNone_iff_eq_none] at h2
      obtain ⟨hr, hn⟩ := h2
      simp only [update_1M_fetch, hr, if_pos, hn, pagesLoop_none]
      simp
    | cons r2 rest2 =>
      simp only [chainedOk, Bool.and_eq_true, beq_iff_eq, Option.isSome_iff_exists] at h2
      obtain ⟨⟨hr, c', hn⟩, hch2⟩ := h2
      simp only [update_1M_fetch, hr, if_pos, hn]
      rw [pagesLoop_chained (r2 :: rest2) c' r.data (by simp) hch2]
      simp

/-- Witness for C2 with three concrete pages. -/
theorem claim_C2_witness :
    (update_1M_fetch ([⟨RetCode.ok, [1], some 1⟩, ⟨RetCode.ok, [2, 3], some 2⟩,
        ⟨RetCode.ok, [4], none⟩] : List (Resp Nat Nat))).out = .done [1, 2, 3, 4] ∧
      (update_1M_fetch ([⟨RetCode.ok, [1], some 1⟩, ⟨RetCode.ok, [2, 3], some 2⟩,
        ⟨RetCode.ok, [4], none⟩] : List (Resp Nat Nat))).rest = [] :=
  claim_C2 Nat Nat [⟨RetCode.ok, [1], some 1⟩, ⟨RetCode.ok, [2, 3], some 2⟩,
    ⟨RetCode.ok, [4], none⟩] (by decide) (by decide)

/-- Counterexample to claim C3: a transient `RET_ERROR` on the *first* page
request is not retried: `update_1M_data` logs and returns at once (lines
254-256), abandoning the fetch — here even though the very next response
would have succeeded.  No sleep and no second request happen. -/
theorem claim_C3_counterexample :
    update_1M_fetch ([⟨RetCode.error, [], none⟩, ⟨RetCode.ok, [5], none⟩] :
        List (Resp Nat Nat)) =
      ⟨.aborted, [.req none RetCode.error], [⟨RetCode.ok, [5], none⟩]⟩ := by
  decide

/-- Claim C3 as amended: for pages *after the first*, a transient failure is
retried (after backoff) indefinitely and never surfaces: the pagination loop
can only end complete (`done`) or with the oracle exhausted mid-retry
(`starved`), never `aborted`; but a `RET_ERROR` on the first page request
makes `update_1M_data` return immediately — one single request, no retry. -/
theorem claim_C3 :
    (∀ (κ α : Type) (oracle : List (Resp κ α)) (cur : Option κ) (acc : List α),
      (pagesLoop oracle cur acc).out = .starved ∨
        ∃ res, (pagesLoop oracle cur acc).out = .done res) ∧
    (∀ (κ α : Type) (r : Resp κ α) (rest : List (Resp κ α)), r.ret = RetCode.error →
      update_1M_fetch (r :: rest) = ⟨.aborted, [.req none RetCode.error], rest⟩) := by
  constructor
  · intro κ α oracle cur acc
    exact pagesLoop_out_cases oracle cur acc
  · intro κ α r rest hr
    simp [update_1M_fetch, hr]

/-- Witness for C3 (amended) at a concrete loop state and a concrete failing
first page. -/
theorem claim_C3_witness :
    ((pagesLoop ([⟨RetCode.error, [], some 3⟩] : List (Resp Nat Nat)) (some 0) []).out =
        .starved ∨
      ∃ res, (pagesLoop ([⟨RetCode.error, [], some 3⟩] : List (Resp Nat Nat))
        (some 0) []).out = .done res) ∧
    update_1M_fetch ([⟨RetCode.error, [7], some 3⟩, ⟨RetCode.ok, [8], none⟩] :
        List (Resp Nat Nat)) =
      ⟨.aborted, [.req none RetCode.error], [⟨RetCode.ok, [8], none⟩]⟩ :=
  ⟨claim_C3.1 Nat Nat [⟨RetCode.error, [], some 3⟩] (some 0) [],
   claim_C3.2 Nat Nat ⟨RetCode.error, [7], some 3⟩ [⟨RetCode.ok, [8], none⟩] rfl⟩

/-- In the pagination loop's event trace, a failed request is immediately
followed by a one-second sleep (the backoff of line 277). -/
lemma pagesLoop_evs_error_sleep {κ α : Type} (oracle : List (Resp κ α)) :
    ∀ (cur : Option κ) (acc : List α) (i : Nat) (c : Option κ),
      ((pagesLoop oracle cur acc).evs)[i]? = some (.req c RetCode.error) →
      ((pagesLoop oracle cur acc).evs)[i + 1]? = some (.sleep 1000) := by
  induction oracle with
  | nil =>
    intro cur acc i c h
    cases cur with
    | none => rw [pagesLoop_none] at h; simp at h
    | some c0 => rw [pagesLoop_nil_some] at h; simp at h
  | cons r rest ih =>
    intro cur acc i c h
    cases cur with
    | none => rw [pagesLoop_none] at h; simp at h
    | some c0 =>
      rcases ret_cases r.ret with hr | hr
      · rw [pagesLoop_cons_ok rest c0 acc hr] at h ⊢
        cases i with
        | zero => simp at h
        | succ i =>
          simp only [List.getElem?_cons_succ] at h ⊢
          exact ih r.next (acc ++ r.data) i c h
      · rw [pagesLoop_cons_error rest c0 acc hr] at h ⊢
        cases i with
        | zero => simp
        | succ i =>
          cases i with
          | zero => simp at h
          | succ i =>
            simp only [List.getElem?_cons_succ] at h ⊢
            exact ih (some c0) acc i c h

/-! ## Claim theorems: empty pages, pacing, window, subscription -/

/-- Claim C6: a successful page holding zero rows is a benign result, not an
error.  In `update_1M_data`: an empty `RET_OK` page in the middle of
pagination appends nothing (the accumulator is passed on unchanged), emits
no sleep and triggers no retry, and the loop continues with the returned
cursor; a whole window with no data (one empty `RET_OK` page with a null
cursor) yields the empty accumulated result with a single request and no
retry.  In `update_DW_data`: an empty `RET_OK` response is saved as-is and
the retry loop exits without sleeping. -/
theorem claim_C6 :
    (∀ (κ α : Type) (rest : List (Resp κ α)) (c c' : κ) (acc : List α),
      pagesLoop (⟨RetCode.ok, [], some c'⟩ :: rest) (some c) acc =
        ⟨(pagesLoop rest (some c') acc).out,
         .req (some c) RetCode.ok :: (pagesLoop rest (some c') acc).evs,
         (pagesLoop rest (some c') acc).rest⟩) ∧
    (∀ (κ α : Type),
      update_1M_fetch ([⟨RetCode.ok, ([] : List α), (none : Option κ)⟩]) =
        ⟨.done [], [.req none RetCode.ok], []⟩) ∧
    (∀ (α : Type) (rest : List (Resp Unit α)),
      dwRetry (⟨RetCode.ok, [], none⟩ :: rest) = ([.req none RetCode.ok], some ([], rest))) := by
  refine ⟨?_, ?_, ?_⟩
  · intro κ α rest c c' acc
    rw [pagesLoop_cons_ok rest c acc rfl]
    simp
  · intro κ α
    simp [update_1M_fetch, pagesLoop_none]
  · intro α rest
    simp [dwRetry]

/-- Counterexample to claim C7: two consecutive *successful* page requests
of `update_1M_data`'s pagination sequence are issued back to back with no
delay call between them — the trace of a two-page all-OK fetch is exactly
two requests and zero sleeps. -/
theorem claim_C7_counterexample :
    (update_1M_fetch ([⟨RetCode.ok, [1], some 1⟩, ⟨RetCode.ok, [2], none⟩] :
        List (Resp Nat Nat))).evs =
      [.req none RetCode.ok, .req (some 1) RetCode.ok] := by
  decide

/-- Claim C7 as amended: the only pacing delays are (a) in `update_1M_data`,
a 1-second sleep immediately after every failed page request and before its
retry; (b) in `update_DW_data`, a 1-second sleep after every failed request
and a 0.6-second sleep after each year's successful fetch, before the next
year's request.  Consecutive successful page requests within
`update_1M_data`'s pagination sequence are issued with no intervening
delay. -/
theorem claim_C7 :
    (∀ (κ α : Type) (oracle : List (Resp κ α)) (i : Nat) (c : κ),
      ((update_1M_fetch oracle).evs)[i]? = some (.req (some c) RetCode.error) →
      ((update_1M_fetch oracle).evs)[i + 1]? = some (.sleep 1000)) ∧
    (∀ (α : Type) (r : Resp Unit α) (rest : List (Resp Unit α)),
      r.ret = RetCode.error →
      dwRetry (r :: rest) =
        (.req none RetCode.error :: .sleep 1000 :: (dwRetry rest).1, (dwRetry rest).2)) ∧
    (∀ (α : Type) (today : Int) (i n : Nat) (r : Resp Unit α) (rest : List (Resp Unit α)),
      r.ret = RetCode.ok →
      dwLoop today i (n + 1) (r :: rest) =
        ⟨(dwStartYear today i, r.data) :: (dwLoop today (i + 1) n rest).files,
         .req none RetCode.ok :: .sleep 600 :: (dwLoop today (i + 1) n rest).evs,
         (dwLoop today (i + 1) n rest).starved⟩) := by
  refine ⟨?_, ?_, ?_⟩
  · intro κ α oracle i c h
    cases oracle with
    | nil => simp [update_1M_fetch] at h
    | cons r rest =>
      rcases ret_cases r.ret with hr | hr
      · simp only [update_1M_fetch, hr, if_pos] at h ⊢
        cases i with
        | zero => simp at h
        | succ i =>
          simp only [List.getElem?_cons_succ] at h ⊢
          exact pagesLoop_evs_error_sleep rest r.next r.data i (some c) h
      · simp only [update_1M_fetch, hr] at h
        cases i with
        | zero => simp at h
        | succ i => simp at h
  · intro α r rest hr
    simp [dwRetry, hr]
  · intro α today i n r rest hr
    simp [dwLoop, dwRetry, hr]

/-- Witness for C7 (amended): concrete failed second page followed by the
1-second backoff; concrete `update_DW_data` steps. -/
theorem claim_C7_witness :
    ((update_1M_fetch ([⟨RetCode.ok, [1], some 5⟩, ⟨RetCode.error, [], some 9⟩,
        ⟨RetCode.ok, [2], none⟩] : List (Resp Nat Nat))).evs)[2]? =
      some (.sleep 1000) ∧
    dwRetry ([⟨RetCode.error, [], none⟩, ⟨RetCode.ok, [3], none⟩] : List (Resp Unit Nat)) =
      (.req none RetCode.error :: .sleep 1000 ::
        (dwRetry ([⟨RetCode.ok, [3], none⟩] : List (Resp Unit Nat))).1,
       (dwRetry ([⟨RetCode.ok, [3], none⟩] : List (Resp Unit Nat))).2) ∧
    dwLoop 20738 0 1 ([⟨RetCode.ok, [4], none⟩] : List (Resp Unit Nat)) =
      ⟨(dwStartYear 20738 0, [4]) :: (dwLoop 20738 1 0 ([] : List (Resp Unit Nat))).files,
       .req none RetCode.ok :: .sleep 600 :: (dwLoop 20738 1 0 ([] : List (Resp Unit Nat))).evs,
       (dwLoop 20738 1 0 ([] : List (Resp Unit Nat))).starved⟩ :=
  ⟨claim_C7.1 Nat Nat [⟨RetCode.ok, [1], some 5⟩, ⟨RetCode.error, [], some 9⟩,
      ⟨RetCode.ok, [2], none⟩] 1 5 (by decide),
   claim_C7.2.1 Nat ⟨RetCode.error, [], none⟩ [⟨RetCode.ok, [3], none⟩] rfl,
   claim_C7.2.2 Nat 20738 0 0 ⟨RetCode.ok, [4], none⟩ [] rfl⟩

/-- Claim C8: `update_1M_data` requests the window
`[today - round(365 * years), today]` when `force_update` is set (for the
integer `years` argument, `round(365 * years) = 365 * years`), and the
window `[today - default_days, today]` with `default_days = 30` otherwise. -/
theorem claim_C8 (today : Int) (years : Nat) :
    update_1M_window today years true = (today - 365 * years, today) ∧
      update_1M_window today years false = (today - 30, today) := by
  constructor
  · have hc : ((365 : ℚ) * (years : ℚ)) = ((365 * years : ℕ) : ℚ) := by push_cast; ring
    simp only [update_1M_window, if_pos, hc, round_natCast]
    push_cast
    ring_nf
  · simp [update_1M_window]

/-- Claim C9: `kline_subscribe` passes only the first 150 stocks of its
input to `quote_ctx.subscribe`; every element from index 150 on is dropped
from the subscription request. -/
theorem claim_C9 (l : List String) :
    kline_subscribe l = l.take 150 ∧ (kline_subscribe l).length ≤ 150 ∧
      ∀ j : Nat, (kline_subscribe l)[150 + j]? = none := by
  have h1 : kline_subscribe l = l.take 150 := by
    unfold kline_subscribe
    rcases le_total l.length 150 with h | h
    · rw [min_eq_left h, List.take_length, List.take_of_length_le h]
    · rw [min_eq_right h]
  have h2 : (kline_subscribe l).length ≤ 150 := by
    rw [h1, List.length_take]
    exact min_le_left _ _
  exact ⟨h1, h2, fun j => List.getElem?_eq_none (le_trans h2 (Nat.le_add_right 150 j))⟩

/-! ## Claim theorems: partition writing -/

/-- Claim C4: for every partition key and pair of successive writes to it,
the write merges the new rows with the persisted ones, de-duplicated by the
candle `time_key` with new rows winning: (1) every row of the second write
is persisted; (2) a previously persisted row whose `time_key` conflicts
with no new row survives the second write; (3) writing preserves
distinctness of `time_key`s; (4) consequently, in `update_1M_data`'s
partition loop, writing the fetch for `[2024-01-01, 2024-01-15]` and then
the fetch for `[2024-01-10, 2024-01-31]` leaves the union of both windows:
the Jan 5 candle (outside the second window) survives, the Jan 12 candle is
held exactly once (the second fetch's copy), and the Jan 20 candle is
present. -/
theorem claim_C4 :
    (∀ (store : List Char → List Candle) (key : List Char) (rows₁ rows₂ : List Candle)
        (c : Candle), c ∈ rows₂ →
        c ∈ save_stock_df_to_file (save_stock_df_to_file store key rows₁) key rows₂ key) ∧
    (∀ (store : List Char → List Candle) (key : List Char) (rows₁ rows₂ : List Candle)
        (c : Candle), c ∈ rows₁ → (∀ c₂ ∈ rows₂, c₂.time_key ≠ c.time_key) →
        c ∈ save_stock_df_to_file (save_stock_df_to_file store key rows₁) key rows₂ key) ∧
    (∀ (store : List Char → List Candle) (key : List Char) (rows : List Candle),
        ((store key).map Candle.time_key).Nodup → (rows.map Candle.time_key).Nodup →
        ((save_stock_df_to_file store key rows key).map Candle.time_key).Nodup) ∧
    (storeJan (jan2024 5) = [⟨tkeyJan2024 5, 0⟩] ∧
      storeJan (jan2024 12) = [⟨tkeyJan2024 12, 2⟩] ∧
      storeJan (jan2024 20) = [⟨tkeyJan2024 20, 3⟩]) := by
  refine ⟨?_, ?_, ?_, ?_⟩
  · intro store key rows₁ rows₂ c hc
    simp only [save_stock_df_to_file, if_pos rfl]
    exact List.mem_append_left _ hc
  · intro store key rows₁ rows₂ c hc hkeys
    simp only [save_stock_df_to_file, if_pos rfl]
    refine List.mem_append_right _ ?_
    rw [List.mem_filter]
    refine ⟨List.mem_append_left _ hc, ?_⟩
    rw [List.all_eq_true]
    intro c₂ hc₂
    simpa using hkeys c₂ hc₂
  · intro store key rows hstore hrows
    simp only [save_stock_df_to_file, if_pos rfl, if_true]
    rw [List.map_append, List.nodup_append]
    refine ⟨hrows, ((List.filter_sublist _).map Candle.time_key).nodup hstore, ?_⟩
    intro a ha hb
    obtain ⟨r, hr, hra⟩ := List.mem_map.1 ha
    obtain ⟨old, hold, holda⟩ := List.mem_map.1 hb
    rw [List.mem_filter] at hold
    have := (List.all_eq_true.1 hold.2) r hr
    simp only [Bool.not_eq_eq_eq_not, Bool.not_true, beq_eq_false_iff_ne, ne_eq] at this
    exact this (hra.trans holda.symm)
  · refine ⟨?_, ?_, ?_⟩ <;> decide

/-- Witness for C4 at a concrete store, key and row lists. -/
theorem claim_C4_witness :
    (⟨tkeyJan2024 2, 9⟩ : Candle) ∈
      save_stock_df_to_file
        (save_stock_df_to_file (fun _ => []) (jan2024 1) [⟨tkeyJan2024 1, 0⟩])
        (jan2024 1) [⟨tkeyJan2024 2, 9⟩] (jan2024 1) ∧
    (⟨tkeyJan2024 1, 0⟩ : Candle) ∈
      save_stock_df_to_file
        (save_stock_df_to_file (fun _ => []) (jan2024 1) [⟨tkeyJan2024 1, 0⟩])
        (jan2024 1) [⟨tkeyJan2024 2, 9⟩] (jan2024 1) ∧
    ((save_stock_df_to_file (fun _ => []) (jan2024 1)
        [⟨tkeyJan2024 1, 0⟩, ⟨tkeyJan2024 2, 1⟩] (jan2024 1)).map
      Candle.time_key).Nodup :=
  ⟨claim_C4.1 (fun _ => []) (jan2024 1) [⟨tkeyJan2024 1, 0⟩] [⟨tkeyJan2024 2, 9⟩]
      ⟨tkeyJan2024 2, 9⟩ (by decide),
   claim_C4.2.1 (fun _ => []) (jan2024 1) [⟨tkeyJan2024 1, 0⟩] [⟨tkeyJan2024 2, 9⟩]
      ⟨tkeyJan2024 1, 0⟩ (by decide) (by decide),
   claim_C4.2.2.1 (fun _ => []) (jan2024 1) [⟨tkeyJan2024 1, 0⟩, ⟨tkeyJan2024 2, 1⟩]
      (by decide) (by decide)⟩

/-! ## Claim theorems: the daily/weekly update -/

/-- Against an all-`RET_OK` oracle built from a source, each of the `n`
iterations of `update_DW_data`'s loop writes one file: the year of
`today - i*365` paired with the first page of the source from January 1 of
that year, followed by the 0.6-second pacing sleep. -/
lemma dwLoop_mkOracle :
    ∀ (n i : Nat) (source : List Int) (today : Int),
      dwLoop today i n (mkDWOracle source today i n) =
        ⟨(List.range' i n).map
            (fun j => (dwStartYear today j, dwPage source (dwStartDay today j))),
         (List.range' i n).flatMap (fun _ => [.req none RetCode.ok, .sleep 600]),
         false⟩ := by
  intro n
  induction n with
  | zero => intro i source today; simp [mkDWOracle, dwLoop]
  | succ n ih =>
    intro i source today
    have hm : mkDWOracle source today i (n + 1) =
        ⟨RetCode.ok, dwPage source (dwStartDay today i), none⟩ ::
          mkDWOracle source today (i + 1) n := by
      simp [mkDWOracle, List.range'_succ]
    rw [hm]
    simp [dwLoop, dwRetry, ih (i + 1) source today, List.range'_succ]

/-- Counterexample to claim C5: with `years = 2` and `force_update = True`,
run on 2026-10-12 (day 20738) against a source holding exactly two years of
daily candles, `update_DW_data` writes 11 year-partition files — `range(0,
11 if force_update else (years + 1))` ignores `years` when forcing — not
the 3 files the claim states. -/
theorem claim_C5_counterexample :
    (update_DW_data (daysFromCivil 2026 10 12) 2 true KLTypeM.K_DAY
        (mkDWOracle ((List.range 730).map (fun k => daysFromCivil 2026 10 12 - 729 + k))
          (daysFromCivil 2026 10 12) 0 11)).map (fun o => o.files.length) =
      some 11 ∧ (11 : Nat) ≠ 3 := by
  constructor
  · rw [update_DW_data, if_pos (Or.inl rfl)]
    have h11 : (if true = true then 11 else 2 + 1) = 11 := rfl
    rw [h11, dwLoop_mkOracle]
    simp
  · decide

/-- Claim C5 as amended: `update_DW_data` with `years = 2` and
`force_update = True` against any source (in particular one holding exactly
2 years of daily candles) whose requests all succeed writes exactly 11
year-partition files, one per iteration `i < 11`, keyed by the year of
`today - i*365`; the file for year `Y` holds the first page (at most 1000
rows) of the source's candles dated from January 1 of `Y` onward — so a
year's file is not restricted to candles of its own calendar year, and rows
beyond the first 1000 of a window are absent. -/
theorem claim_C5 (today : Int) (source : List Int) :
    update_DW_data today 2 true KLTypeM.K_DAY (mkDWOracle source today 0 11) =
      some ⟨(List.range' 0 11).map
          (fun j => (dwStartYear today j, dwPage source (dwStartDay today j))),
        (List.range' 0 11).flatMap (fun _ => [.req none RetCode.ok, .sleep 600]),
        false⟩ := by
  rw [update_DW_data, if_pos (Or.inl rfl)]
  have h11 : (if true = true then 11 else 2 + 1) = 11 := rfl
  rw [h11, dwLoop_mkOracle]

/-! ## Claim theorems: turnover stock filtering -/

/-- If the loop of `get_filtered_turnover_stocks` reaches a `RET_ERROR`
response (all earlier pages `RET_OK` and non-final), it returns `[]`. -/
lemma gfts_err :
    ∀ (i : Nat) (oracle : List FilterResp) (b : Nat) (acc : List Nat),
      continuesUpTo oracle b i = true → oracle[i]? = some .err →
      get_filtered_turnover_stocks oracle b acc = some [] := by
  intro i
  induction i with
  | zero =>
    intro oracle b acc _ h2
    cases oracle with
    | nil => simp at h2
    | cons r rest =>
      simp only [List.getElem?_cons_zero, Option.some.injEq] at h2
      subst h2
      rfl
  | succ i ih =>
    intro oracle b acc h1 h2
    cases oracle with
    | nil => simp [continuesUpTo] at h1
    | cons r rest =>
      cases r with
      | err => simp [continuesUpTo] at h1
      | ok lp ac cs =>
        simp only [continuesUpTo, Bool.and_eq_true, decide_eq_true_eq] at h1
        obtain ⟨hlt, hcont⟩ := h1
        simp only [List.getElem?_cons_succ] at h2
        rw [get_filtered_turnover_stocks, if_neg (not_le.2 hlt)]
        exact ih rest (b + 200) (acc ++ cs) hcont h2

/-- A complete error-free pagination run returns the accumulator followed by
the concatenation of every page's codes. -/
lemma gfts_allok :
    ∀ (oracle : List FilterResp) (b : Nat) (acc : List Nat),
      allOkRun oracle b = true →
      get_filtered_turnover_stocks oracle b acc = some (acc ++ oracle.flatMap codesOf) := by
  intro oracle
  induction oracle with
  | nil => intro b acc h; simp [allOkRun] at h
  | cons r rest ih =>
    intro b acc h
    cases r with
    | err =>
      exfalso
      cases rest <;> simp [allOkRun] at h
    | ok lp ac cs =>
      cases rest with
      | nil =>
        simp only [allOkRun, decide_eq_true_eq] at h
        rw [get_filtered_turnover_stocks, if_pos h]
        simp [codesOf]
      | cons r2 rest2 =>
        simp only [allOkRun, Bool.and_eq_true, decide_eq_true_eq] at h
        obtain ⟨hlt, hrec⟩ := h
        rw [get_filtered_turnover_stocks, if_neg (not_le.2 hlt)]
        rw [ih (b + 200) (acc ++ cs) hrec]
        simp [codesOf]

/-- Claim C10: if any page of the stock-filter pagination returns
`RET_ERROR`, `get_filtered_turnover_stocks` returns the empty list,
discarding all codes accumulated from earlier successful pages; if every
page succeeds, it returns the concatenation of all pages' stock codes. -/
theorem claim_C10 :
    (∀ (oracle : List FilterResp) (i : Nat), continuesUpTo oracle 0 i = true →
      oracle[i]? = some .err → get_filtered_turnover_stocks oracle 0 [] = some []) ∧
    (∀ oracle : List FilterResp, allOkRun oracle 0 = true →
      get_filtered_turnover_stocks oracle 0 [] = some (oracle.flatMap codesOf)) := by
  constructor
  · intro oracle i h1 h2
    exact gfts_err i oracle 0 [] h1 h2
  · intro oracle h
    simpa using gfts_allok oracle 0 [] h

/-- Witness for C10: an error on page 2 throws away page 1's codes; an
error-free two-page run returns both pages' codes. -/
theorem claim_C10_witness :
    get_filtered_turnover_stocks [.ok false 500 [1, 2], .err] 0 [] = some [] ∧
    get_filtered_turnover_stocks [.ok false 300 [1], .ok true 300 [2, 3]] 0 [] =
      some (([.ok false 300 [1], .ok true 300 [2, 3]] : List FilterResp).flatMap codesOf) :=
  ⟨claim_C10.1 [.ok false 500 [1, 2], .err] 1 (by decide) (by decide),
   claim_C10.2 [.ok false 300 [1], .ok true 300 [2, 3]] (by decide)⟩

end FutuAlgo
